import Mathlib

/-!
Verification development for the TMU schedule exporter userscript
(`src/index.ts`).  JavaScript strings are modelled as `List Char`
(abbreviated `Str`); the JS string primitives the program uses
(`split`, `replace`, `trim`, `toLowerCase`, `padStart`, template
interpolation, `Number`) are embedded as structurally recursive
functions on `Str`.  Machine integers are modelled as `Int`
(JavaScript numbers in this program stay far below 2^53, so no
overflow modelling is needed); `NaN`/`undefined` are modelled with
`Option`.  Thrown exceptions are modelled with `Except`.
-/

/-- A JavaScript string, modelled as its list of characters. -/
abbrev Str := List Char

/-! ## JS string primitives -/

/-- Numeric value of a list of decimal digit characters. -/
def digitsVal (l : Str) : Nat :=
  l.foldl (fun n c => n * 10 + (c.toNat - '0'.toNat)) 0

/-- JS `Number(s)` restricted to the string shapes this program feeds it:
the empty string maps to 0, optionally signed decimal digit strings map
to their value, and everything else maps to `none` (NaN).  Floats, hex,
exponents, `Infinity` and interior whitespace are out of scope. -/
def jsNumber (s : Str) : Option Int :=
  match s with
  | [] => some 0
  | '-' :: rest =>
      if rest ≠ [] ∧ rest.all Char.isDigit then some (-(digitsVal rest : Int)) else none
  | '+' :: rest =>
      if rest ≠ [] ∧ rest.all Char.isDigit then some (digitsVal rest : Int) else none
  | _ =>
      if s.all Char.isDigit then some (digitsVal s : Int) else none

/-- JS `s.split(sep)` for a one-character separator `sep`. -/
def jsSplit (sep : Char) : Str → List Str
  | [] => [[]]
  | c :: rest =>
      match jsSplit sep rest with
      | [] => if c = sep then [[], []] else [[c]]
      | h :: t => if c = sep then [] :: h :: t else (c :: h) :: t

/-- Whether `p` occurs at the head of `l`. -/
def leadsWith : Str → Str → Bool
  | [], _ => true
  | _ :: _, [] => false
  | p :: ps, c :: cs => p == c && leadsWith ps cs

/-- JS `s.split(sep)[0]` for a multi-character separator: everything
before the first occurrence of `sep` (the whole string if absent). -/
def takeUntilSep (sep : Str) : Str → Str
  | [] => []
  | c :: rest => if leadsWith sep (c :: rest) then [] else c :: takeUntilSep sep rest

/-- JS `s.trim()`: strip whitespace from both ends. -/
def jsTrim (s : Str) : Str :=
  ((s.dropWhile Char.isWhitespace).reverse.dropWhile Char.isWhitespace).reverse

/-- JS `s.replace(/c/g, r)` for a one-character pattern `c`. -/
def replaceChar (c : Char) (r : Str) : Str → Str
  | [] => []
  | a :: rest => (if a = c then r else [a]) ++ replaceChar c r rest

/-- JS `s.toLowerCase()` (ASCII behaviour). -/
def jsToLower (s : Str) : Str :=
  s.map Char.toLower

/-- JS `String(n).padStart(2, "0")` applied to an already rendered string. -/
def padStart2 (s : Str) : Str :=
  if s.length < 2 then List.replicate (2 - s.length) '0' ++ s else s

/-- JS `String(n)` / template interpolation of an integer. -/
def jsIntToStr (i : Int) : Str :=
  if i < 0 then '-' :: Nat.toDigits 10 i.natAbs else Nat.toDigits 10 i.natAbs

/-! ## Period table (`PERIOD_TIME`) -/

/-- Start/end wall-clock time of one class period. -/
structure PeriodTime where
  sh : Nat
  sm : Nat
  eh : Nat
  em : Nat
deriving DecidableEq

/-- The `PERIOD_TIME` record literal: period index to start/end time.
Indexing a JS record with an absent key yields `undefined` (`none`). -/
def PERIOD_TIME (p : Int) : Option PeriodTime :=
  if p = 1 then some ⟨6, 30, 7, 20⟩
  else if p = 2 then some ⟨7, 25, 8, 15⟩
  else if p = 3 then some ⟨8, 20, 9, 10⟩
  else if p = 4 then some ⟨9, 20, 10, 10⟩
  else if p = 5 then some ⟨10, 15, 11, 5⟩
  else if p = 6 then some ⟨11, 10, 12, 0⟩
  else if p = 7 then some ⟨12, 30, 13, 20⟩
  else if p = 8 then some ⟨13, 25, 14, 15⟩
  else if p = 9 then some ⟨14, 20, 15, 10⟩
  else if p = 10 then some ⟨15, 20, 16, 10⟩
  else if p = 11 then some ⟨16, 15, 17, 5⟩
  else if p = 12 then some ⟨17, 10, 18, 0⟩
  else none

/-! ## Domain types -/

structure WeekScheduleItem where
  TermID : Int
  YearStudy : Int
  Week : Int
deriving DecidableEq

/-- One raw schedule row.  `NumberOfPeriods` is `number | string` in the
source and is only ever interpolated into text, so it is modelled by its
rendered string. -/
structure TMUScheduleItem where
  Date : Str
  PeriodName : Str
  RoomID : Str
  CaHoc : Str
  ScheduleStudyUnitID : Str
  NumberOfPeriods : Str
  ProfessorName : Str
  CurriculumName : Str
deriving DecidableEq

structure CalendarEvent where
  uid : Str
  title : Str
  location : Str
  description : Str
  start : Str
  «end» : Str
deriving DecidableEq

/-! ## DateUtils -/

/-- `DateUtils.pad2`: render a number and left-pad to two characters. -/
def pad2 (n : Int) : Str :=
  padStart2 (jsIntToStr n)

/-- `DateUtils.toICSDate`: compact ICS timestamp
(`year`, padded month/day, `T`, padded hour/minute, `00`). -/
def toICSDate (y m d : Int) (h min : Nat) : Str :=
  jsIntToStr y ++ pad2 m ++ pad2 d ++ 'T' :: (pad2 h ++ pad2 min ++ ['0', '0'])

/-! ## Mapper (`TMUScheduleToEventMapper`) -/

/-- `cleanRoom`: first `"</br>"`-separated segment of the room id, trimmed. -/
def cleanRoom (roomId : Str) : Str :=
  jsTrim (takeUntilSep "</br>".data roomId)

/-- Lazy body of the regex `/\((.*?)\)/` after an opening parenthesis:
characters up to the first `)`; a newline (not matched by `.`) or the end
of input aborts this attempt. -/
def takeUntilClose : Str → Option Str
  | [] => none
  | ')' :: _ => some []
  | '\n' :: _ => none
  | c :: rest => (takeUntilClose rest).map (c :: ·)

/-- `item.CaHoc.match(/\((.*?)\)/)?.[1]`: first parenthesised group. -/
def matchParenGroup : Str → Option Str
  | [] => none
  | '(' :: rest =>
      match takeUntilClose rest with
      | some inner => some inner
      | none => matchParenGroup rest
  | _ :: rest => matchParenGroup rest

/-- The i-th `Number`-parsed component of the `/`-separated date field
(`none` models both a missing component and NaN). -/
def dateComponent (item : TMUScheduleItem) (i : Nat) : Option Int :=
  (((jsSplit '/' item.Date).map jsNumber)[i]?).bind id

/-- The i-th `Number`-parsed component of the `-`-separated period field. -/
def periodIndex (item : TMUScheduleItem) (i : Nat) : Option Int :=
  (((jsSplit '-' item.PeriodName).map jsNumber)[i]?).bind id

/-- The i-th period-table lookup for a record (`PERIOD_TIME[sp]` / `[ep]`). -/
def periodLookup (item : TMUScheduleItem) (i : Nat) : Option PeriodTime :=
  (periodIndex item i).bind PERIOD_TIME

/-- The `description` local of `toEvent`: section id, period count, period
range, display start time (first parenthesised group of `CaHoc`, defaulting
to the empty string), instructor name. -/
def eventDescription (item : TMUScheduleItem) : Str :=
  "LHP: ".data ++ item.ScheduleStudyUnitID ++
  "\nSố tiết: ".data ++ item.NumberOfPeriods ++
  "\nTiết: ".data ++ item.PeriodName ++
  "\nGiờ bắt đầu: ".data ++ (matchParenGroup item.CaHoc).getD [] ++
  "\nGV: ".data ++ item.ProfessorName

/-- `TMUScheduleToEventMapper.toEvent`.  The generated uid
(`IdFactory.uid`, random) is passed in as a parameter. -/
def toEvent (uid : Str) (item : TMUScheduleItem) : Option CalendarEvent :=
  match dateComponent item 0, dateComponent item 1, dateComponent item 2 with
  | some d, some m, some y =>
      if d = 0 ∨ m = 0 ∨ y = 0 then none
      else
        match periodLookup item 0, periodLookup item 1 with
        | some st, some et =>
            some
              { uid := uid
                title := item.CurriculumName ++ " - ".data ++ cleanRoom item.RoomID
                location := cleanRoom item.RoomID
                description := eventDescription item
                start := toICSDate y m d st.sh st.sm
                «end» := toICSDate y m d et.eh et.em }
        | _, _ => none
  | _, _, _ => none

/-- `TMUScheduleToEventMapper.map`: map each item to an event (uids drawn
from `uidGen` by position) and keep the non-null results. -/
def mapSchedules (uidGen : Nat → Str) (items : List TMUScheduleItem) : List CalendarEvent :=
  ((items.enum.map fun p => toEvent (uidGen p.1) p.2).filterMap id)

/-! ## Serializer (`IcsCalendarSerializer`) -/

/-- `escapeText`: the four global replaces, in source order
(backslash, newline, comma, semicolon). -/
def escapeText (s : Str) : Str :=
  replaceChar ';' ['\\', ';']
    (replaceChar ',' ['\\', ',']
      (replaceChar '\n' ['\\', 'n']
        (replaceChar '\\' ['\\', '\\'] s)))

/-- Reversal of the four substitutions: a single left-to-right scan that
turns each backslash escape back into the character it encodes. -/
def unescapeText : Str → Str
  | [] => []
  | '\\' :: c :: rest => (if c = 'n' then '\n' else c) :: unescapeText rest
  | c :: rest => c :: unescapeText rest

def TZID : Str := "Asia/Ho_Chi_Minh".data

/-- `serializeEvent`: one VEVENT block. -/
def serializeEvent (e : CalendarEvent) : Str :=
  "BEGIN:VEVENT\nUID:".data ++ e.uid ++
  "\nDTSTAMP:".data ++ e.start ++
  "\nDTSTART;TZID=".data ++ TZID ++ ':' :: e.start ++
  "\nDTEND;TZID=".data ++ TZID ++ ':' :: e.«end» ++
  "\nSUMMARY:".data ++ escapeText e.title ++
  "\nLOCATION:".data ++ escapeText e.location ++
  "\nDESCRIPTION:".data ++ escapeText e.description ++
  "\nEND:VEVENT\n".data

/-- `serialize`: fixed header, event blocks, closing marker. -/
def serialize (events : List CalendarEvent) : Str :=
  ("BEGIN:VCALENDAR\nVERSION:2.0\nCALSCALE:GREGORIAN\n".data ++
   "PRODID:-//TMU//Schedule Exporter//VN\nBEGIN:VTIMEZONE\nTZID:".data ++ TZID ++
   "\nBEGIN:STANDARD\nDTSTART:19700101T000000\nTZOFFSETFROM:+0700\n".data ++
   "TZOFFSETTO:+0700\nTZNAME:ICT\nEND:STANDARD\nEND:VTIMEZONE\n".data) ++
  (events.map serializeEvent).flatten ++
  "END:VCALENDAR".data

/-! ## Interceptor (`TMUInterceptorContext`) -/

/-- The mutable fields of `TMUInterceptorContext`
(`null` modelled as `none`). -/
structure InterceptorState where
  apiKey : Option Str
  authorization : Option Str
  cachedWeeks : Option (List WeekScheduleItem)
deriving DecidableEq

/-- The fresh context: all fields `null`. -/
def initialState : InterceptorState :=
  { apiKey := none, authorization := none, cachedWeeks := none }

/-- JS truthiness of a nullable string: `null` and `""` are falsy. -/
def jsTruthy (o : Option Str) : Bool :=
  match o with
  | none => false
  | some s => !s.isEmpty

/-- `getAuthHeaders`: `null` unless both secrets are truthy, otherwise the
three request headers. -/
def getAuthHeaders (st : InterceptorState) : Option (List (Str × Str)) :=
  if !jsTruthy st.apiKey || !jsTruthy st.authorization then none
  else
    some [("apikey".data, st.apiKey.getD []),
          ("authorization".data, st.authorization.getD []),
          ("clientid".data, "tmu".data)]

/-- The patched `XMLHttpRequest.prototype.setRequestHeader`: lower-case the
header name; store the value into any still-falsy matching secret field. -/
def setRequestHeader (st : InterceptorState) (key value : Str) : InterceptorState :=
  let lower := jsToLower key
  let st1 :=
    if !jsTruthy st.apiKey && lower == "apikey".data then
      { st with apiKey := some value } else st
  let st2 :=
    if !jsTruthy st1.authorization && lower == "authorization".data then
      { st1 with authorization := some value } else st1
  st2

/-- A sequence of header-setting steps applied in order. -/
def processHeaders (st : InterceptorState) (trace : List (Str × Str)) : InterceptorState :=
  trace.foldl (fun s kv => setRequestHeader s kv.1 kv.2) st

/-- First value in a trace whose lower-cased header name equals `name`. -/
def firstSeen (name : Str) : List (Str × Str) → Option Str
  | [] => none
  | kv :: rest => if jsToLower kv.1 == name then some kv.2 else firstSeen name rest

/-- First value in a trace whose lower-cased header name equals `name` AND
which is truthy (non-empty): empty matching values before it are skipped. -/
def firstTruthySeen (name : Str) : List (Str × Str) → Option Str
  | [] => none
  | kv :: rest =>
      if jsToLower kv.1 == name && !kv.2.isEmpty then some kv.2
      else firstTruthySeen name rest

/-! ## Service (`TMUScheduleService`) -/

/-- The week filter inside `loadCurrentTermSchedules`: keep the weeks whose
`(TermID, YearStudy)` pair equals that of the first element. -/
def termWeekFilter (weeks : List WeekScheduleItem) : List WeekScheduleItem :=
  match weeks with
  | [] => []
  | current :: _ =>
      weeks.filter fun w => w.TermID == current.TermID && w.YearStudy == current.YearStudy

/-- Records contributed by one week's fetch: a thrown error (`Except.error`)
is caught and yields `[]`; a response's missing `ResultDataSchedule` field
(`none`) defaults to `[]` (`?? []`). -/
def fetchRecords (r : Except Unit (Option (List TMUScheduleItem))) : List TMUScheduleItem :=
  match r with
  | .error _ => []
  | .ok data => data.getD []

/-- `loadCurrentTermSchedules`.  `fetch w` models the awaited
`http.getJson` call for the `DrawingSchedules` URL built from week `w`
(error = thrown network/HTTP failure).  `Promise.all` resolves to the
results in the order of its input array, so the fan-out/fan-in is an
order-preserving map over the filtered week list. -/
def loadCurrentTermSchedules (st : InterceptorState)
    (fetch : WeekScheduleItem → Except Unit (Option (List TMUScheduleItem))) :
    List TMUScheduleItem :=
  match st.cachedWeeks with
  | none => []
  | some [] => []
  | some (current :: rest) =>
      match getAuthHeaders st with
      | none => []
      | some _ =>
          ((termWeekFilter (current :: rest)).map fun w => fetchRecords (fetch w)).flatten

/-! ## Orchestrator (`TMUExporterApp.exportCurrentTerm`) -/

/-- The body of `exportCurrentTerm` after the schedules have been loaded:
map to events; with zero events alert "nothing to export" and skip the
file save (`none`); otherwise save the serialized text (`some`). -/
def exportCurrentTerm (uidGen : Nat → Str) (schedules : List TMUScheduleItem) : Option Str :=
  let events := mapSchedules uidGen schedules
  if events.length = 0 then none
  else some (serialize events)

/-! ## Specification-side definitions used by the theorems -/

/-- The character-level effect of the four ordered substitutions. -/
def escChar (a : Char) : Str :=
  if a = '\\' then ['\\', '\\']
  else if a = '\n' then ['\\', 'n']
  else if a = ',' then ['\\', ',']
  else if a = ';' then ['\\', ';']
  else [a]

/-- JS falsiness of a number that may also be NaN/undefined (`none`). -/
def jsFalsy (o : Option Int) : Prop := o = none ∨ o = some 0

instance (o : Option Int) : Decidable (jsFalsy o) := by unfold jsFalsy; infer_instance

/-- Bounded check comparing the time-of-day parts of two period entries. -/
def suffixOkB (o1 o2 : Option PeriodTime) : Bool :=
  match o1, o2 with
  | some st, some et =>
      decide (('T' :: (pad2 st.sh ++ pad2 st.sm ++ ['0', '0'])) <
        ('T' :: (pad2 et.eh ++ pad2 et.em ++ ['0', '0'])))
  | _, _ => true

/-! ## Concrete fixtures used by witnesses and counterexamples -/

/-- The raw record of end-to-end scenario 1 (claim C1 / C6 witness). -/
def cItem6 : TMUScheduleItem :=
  ⟨"25/02/2026".data, "1-3".data, "P101</br>extra".data, "(07:00)".data, [], [], [], []⟩

/-- The event `toEvent` produces for `cItem6` with uid `"u"`. -/
def cEvent6 : CalendarEvent :=
  ⟨"u".data, " - P101".data, "P101".data,
   "LHP: \nSố tiết: \nTiết: 1-3\nGiờ bắt đầu: 07:00\nGV: ".data,
   "20260225T063000".data, "20260225T091000".data⟩

/-- A record whose period-range field has no dash. -/
def cItem10 : TMUScheduleItem :=
  ⟨"25/02/2026".data, "5".data, [], [], [], [], [], []⟩

/-- Week `n` of a fixed term (term 1 of year 2025). -/
def wk5 (n : Int) : WeekScheduleItem := ⟨1, 2025, n⟩

def recA : TMUScheduleItem := ⟨"a".data, [], [], [], [], [], [], []⟩

def recB : TMUScheduleItem := ⟨"b".data, [], [], [], [], [], [], []⟩

/-- A fetch where week 2 throws and weeks 1 and 3 succeed. -/
def fetch3 : WeekScheduleItem → Except Unit (Option (List TMUScheduleItem)) :=
  fun w =>
    if w.Week = 1 then Except.ok (some [recA])
    else if w.Week = 2 then Except.error ()
    else Except.ok (some [recB])

/-- A context with captured credentials and three cached weeks. -/
def st5 : InterceptorState :=
  ⟨some "k".data, some "a".data, some [wk5 1, wk5 2, wk5 3]⟩

/-! ## Helper lemmas: escaping -/

theorem replaceChar_append (c : Char) (r : Str) (x y : Str) :
    replaceChar c r (x ++ y) = replaceChar c r x ++ replaceChar c r y := by
  induction x with
  | nil => rfl
  | cons a x ih => simp [replaceChar, ih]

theorem escapeText_cons (a : Char) (s : Str) :
    escapeText (a :: s) = escChar a ++ escapeText s := by
  by_cases h1 : a = '\\'
  · subst h1; simp [escapeText, escChar, replaceChar, replaceChar_append]
  · by_cases h2 : a = '\n'
    · subst h2; simp [escapeText, escChar, replaceChar, replaceChar_append]
    · by_cases h3 : a = ','
      · subst h3; simp [escapeText, escChar, replaceChar, replaceChar_append]
      · by_cases h4 : a = ';'
        · subst h4; simp [escapeText, escChar, replaceChar, replaceChar_append]
        · simp [escapeText, escChar, replaceChar, replaceChar_append, h1, h2, h3, h4]

theorem unescape_escapeText (s : Str) : unescapeText (escapeText s) = s := by
  induction s with
  | nil => rfl
  | cons a s ih =>
    rw [escapeText_cons]
    by_cases h1 : a = '\\'
    · subst h1; simp [escChar, unescapeText, ih]
    · by_cases h2 : a = '\n'
      · subst h2; simp [escChar, unescapeText, ih]
      · by_cases h3 : a = ','
        · subst h3; simp [escChar, unescapeText, ih]
        · by_cases h4 : a = ';'
          · subst h4; simp [escChar, unescapeText, ih]
          · simp [escChar, h1, h2, h3, h4]
            cases hs : escapeText s with
            | nil => simp [unescapeText, h1, ← hs, ih]
            | cons b t => simp [unescapeText, h1, ← hs, ih]

/-! ## Helper lemmas: period table and timestamp order -/

theorem PERIOD_TIME_eq_none {p : Int} (h : p < 1 ∨ 12 < p) : PERIOD_TIME p = none := by
  unfold PERIOD_TIME
  repeat rw [if_neg (by omega)]

theorem PERIOD_TIME_bounds {p : Int} {t : PeriodTime} (h : PERIOD_TIME p = some t) :
    1 ≤ p ∧ p ≤ 12 := by
  by_cases hp : 1 ≤ p ∧ p ≤ 12
  · exact hp
  · rw [PERIOD_TIME_eq_none (by omega)] at h
    exact Option.noConfusion h

theorem period_suffix_lt_nat : ∀ a : Nat, a < 12 → ∀ b : Nat, b < 12 → a ≤ b →
    suffixOkB (PERIOD_TIME ((a : Int) + 1)) (PERIOD_TIME ((b : Int) + 1)) = true := by
  decide

theorem cons_lt_cons_iff (c : Char) (x y : Str) : (c :: x) < (c :: y) ↔ x < y := by
  constructor
  · intro h
    cases h with
    | cons h => exact h
    | rel h => exact absurd h (lt_irrefl c)
  · exact List.Lex.cons

theorem append_lt_append_iff (p x y : Str) : (p ++ x) < (p ++ y) ↔ x < y := by
  induction p with
  | nil => simp
  | cons c p ih => simpa [cons_lt_cons_iff] using ih

theorem period_suffix_lt {sp ep : Int} {st et : PeriodTime}
    (hle : sp ≤ ep)
    (hst : PERIOD_TIME sp = some st) (het : PERIOD_TIME ep = some et) :
    ('T' :: (pad2 st.sh ++ pad2 st.sm ++ ['0', '0'])) <
      ('T' :: (pad2 et.eh ++ pad2 et.em ++ ['0', '0'])) := by
  obtain ⟨hsp1, hsp2⟩ := PERIOD_TIME_bounds hst
  obtain ⟨hep1, hep2⟩ := PERIOD_TIME_bounds het
  obtain ⟨a, ha, rfl⟩ : ∃ a : Nat, a < 12 ∧ sp = (a : Int) + 1 :=
    ⟨(sp - 1).toNat, by omega, by omega⟩
  obtain ⟨b, hb, rfl⟩ : ∃ b : Nat, b < 12 ∧ ep = (b : Int) + 1 :=
    ⟨(ep - 1).toNat, by omega, by omega⟩
  have h := period_suffix_lt_nat a ha b hb (by omega)
  rw [hst, het] at h
  simp only [suffixOkB, decide_eq_true_eq] at h
  exact h

/-! ## Helper lemmas: mapper -/

theorem toEvent_some_shape {uid : Str} {item : TMUScheduleItem} {e : CalendarEvent}
    (h : toEvent uid item = some e) :
    ∃ d m y st et,
      dateComponent item 0 = some d ∧ dateComponent item 1 = some m ∧
      dateComponent item 2 = some y ∧ ¬(d = 0 ∨ m = 0 ∨ y = 0) ∧
      periodLookup item 0 = some st ∧ periodLookup item 1 = some et ∧
      e.start = toICSDate y m d st.sh st.sm ∧ e.«end» = toICSDate y m d et.eh et.em := by
  rcases hd0 : dateComponent item 0 with _ | d <;>
  rcases hd1 : dateComponent item 1 with _ | m <;>
  rcases hd2 : dateComponent item 2 with _ | y <;>
    unfold toEvent at h <;> simp only [hd0, hd1, hd2] at h
  all_goals try exact Option.noConfusion h
  by_cases hz : d = 0 ∨ m = 0 ∨ y = 0
  · rw [if_pos hz] at h
    exact Option.noConfusion h
  · rw [if_neg hz] at h
    rcases hp0 : periodLookup item 0 with _ | st <;>
    rcases hp1 : periodLookup item 1 with _ | et <;> simp only [hp0, hp1] at h
    all_goals try exact Option.noConfusion h
    injection h with h
    subst h
    exact ⟨d, m, y, st, et, rfl, rfl, rfl, hz, rfl, rfl, rfl, rfl⟩

theorem toEvent_none_iff (uid : Str) (item : TMUScheduleItem) :
    toEvent uid item = none ↔
      jsFalsy (dateComponent item 0) ∨ jsFalsy (dateComponent item 1) ∨
      jsFalsy (dateComponent item 2) ∨
      periodLookup item 0 = none ∨ periodLookup item 1 = none := by
  rcases hd0 : dateComponent item 0 with _ | d <;>
  rcases hd1 : dateComponent item 1 with _ | m <;>
  rcases hd2 : dateComponent item 2 with _ | y <;>
    unfold toEvent <;> simp only [hd0, hd1, hd2]
  all_goals try (simp [jsFalsy]; done)
  by_cases hz : d = 0 ∨ m = 0 ∨ y = 0
  · rw [if_pos hz]
    exact iff_of_true rfl (by simp [jsFalsy]; tauto)
  · rw [if_neg hz]
    push_neg at hz
    rcases hp0 : periodLookup item 0 with _ | st <;>
    rcases hp1 : periodLookup item 1 with _ | et <;> simp only [hp0, hp1]
    all_goals simp [jsFalsy, hz.1, hz.2.1, hz.2.2]

theorem mapSchedules_eq_filterMap (uidGen : Nat → Str) (items : List TMUScheduleItem) :
    mapSchedules uidGen items = items.enum.filterMap fun p => toEvent (uidGen p.1) p.2 := by
  unfold mapSchedules
  rw [List.filterMap_map]
  rfl

theorem mapSchedules_length_le (uidGen : Nat → Str) (items : List TMUScheduleItem) :
    (mapSchedules uidGen items).length ≤ items.length := by
  rw [mapSchedules_eq_filterMap]
  calc (items.enum.filterMap fun p => toEvent (uidGen p.1) p.2).length
      ≤ items.enum.length := List.length_filterMap_le _ _
    _ = items.length := List.enum_length

/-! ## Helper lemmas: interceptor -/

theorem setRequestHeader_apiKey (st : InterceptorState) (k v : Str) :
    (setRequestHeader st k v).apiKey =
      if !jsTruthy st.apiKey && (jsToLower k == "apikey".data) then some v
      else st.apiKey := by
  unfold setRequestHeader
  by_cases h1 : (!jsTruthy st.apiKey && (jsToLower k == "apikey".data)) = true <;>
    by_cases h2 : (!jsTruthy st.authorization && (jsToLower k == "authorization".data)) = true <;>
    simp [h1, h2]

theorem setRequestHeader_authorization (st : InterceptorState) (k v : Str) :
    (setRequestHeader st k v).authorization =
      if !jsTruthy st.authorization && (jsToLower k == "authorization".data) then some v
      else st.authorization := by
  unfold setRequestHeader
  by_cases h1 : (!jsTruthy st.apiKey && (jsToLower k == "apikey".data)) = true <;>
    by_cases h2 : (!jsTruthy st.authorization && (jsToLower k == "authorization".data)) = true <;>
    simp [h1, h2]

theorem processHeaders_cons (st : InterceptorState) (kv : Str × Str)
    (trace : List (Str × Str)) :
    processHeaders st (kv :: trace) = processHeaders (setRequestHeader st kv.1 kv.2) trace := rfl

theorem processHeaders_apiKey_of_truthy (trace : List (Str × Str)) :
    ∀ st : InterceptorState, jsTruthy st.apiKey = true →
      (processHeaders st trace).apiKey = st.apiKey := by
  induction trace with
  | nil => intro st _; rfl
  | cons kv rest ih =>
    intro st h
    rw [processHeaders_cons]
    have hstep : (setRequestHeader st kv.1 kv.2).apiKey = st.apiKey := by
      rw [setRequestHeader_apiKey, h]
      simp
    rw [ih _ (by rw [hstep]; exact h), hstep]

theorem processHeaders_authorization_of_truthy (trace : List (Str × Str)) :
    ∀ st : InterceptorState, jsTruthy st.authorization = true →
      (processHeaders st trace).authorization = st.authorization := by
  induction trace with
  | nil => intro st _; rfl
  | cons kv rest ih =>
    intro st h
    rw [processHeaders_cons]
    have hstep : (setRequestHeader st kv.1 kv.2).authorization = st.authorization := by
      rw [setRequestHeader_authorization, h]
      simp
    rw [ih _ (by rw [hstep]; exact h), hstep]

theorem firstTruthySeen_apiKey_wins (trace : List (Str × Str)) :
    ∀ (trace' : List (Str × Str)) (st : InterceptorState) (v : Str),
      jsTruthy st.apiKey = false → firstTruthySeen "apikey".data trace = some v →
      (processHeaders st (trace ++ trace')).apiKey = some v := by
  induction trace with
  | nil =>
    intro tr' st v _ hfs
    exact Option.noConfusion hfs
  | cons kv rest ih =>
    intro tr' st v hft hfs
    rw [List.cons_append, processHeaders_cons]
    by_cases hk : (jsToLower kv.1 == "apikey".data && !kv.2.isEmpty) = true
    · rw [firstTruthySeen, if_pos hk] at hfs
      injection hfs with hfs
      subst hfs
      rw [Bool.and_eq_true] at hk
      have hstep : (setRequestHeader st kv.1 kv.2).apiKey = some kv.2 := by
        rw [setRequestHeader_apiKey, hft]
        simp [hk.1]
      rw [processHeaders_apiKey_of_truthy _ _ (by
        rw [hstep]
        simpa [jsTruthy] using hk.2), hstep]
    · rw [firstTruthySeen, if_neg hk] at hfs
      have hstep : jsTruthy (setRequestHeader st kv.1 kv.2).apiKey = false := by
        rw [setRequestHeader_apiKey]
        by_cases hm : (jsToLower kv.1 == "apikey".data) = true
        · have hkv : kv.2.isEmpty = true := by
            simpa [hm] using hk
          rw [if_pos (by simp [hft, hm])]
          simp [jsTruthy, hkv]
        · rw [if_neg (by simp [hm])]
          exact hft
      exact ih tr' _ v hstep hfs

theorem firstTruthySeen_authorization_wins (trace : List (Str × Str)) :
    ∀ (trace' : List (Str × Str)) (st : InterceptorState) (v : Str),
      jsTruthy st.authorization = false →
      firstTruthySeen "authorization".data trace = some v →
      (processHeaders st (trace ++ trace')).authorization = some v := by
  induction trace with
  | nil =>
    intro tr' st v _ hfs
    exact Option.noConfusion hfs
  | cons kv rest ih =>
    intro tr' st v hft hfs
    rw [List.cons_append, processHeaders_cons]
    by_cases hk : (jsToLower kv.1 == "authorization".data && !kv.2.isEmpty) = true
    · rw [firstTruthySeen, if_pos hk] at hfs
      injection hfs with hfs
      subst hfs
      rw [Bool.and_eq_true] at hk
      have hstep : (setRequestHeader st kv.1 kv.2).authorization = some kv.2 := by
        rw [setRequestHeader_authorization, hft]
        simp [hk.1]
      rw [processHeaders_authorization_of_truthy _ _ (by
        rw [hstep]
        simpa [jsTruthy] using hk.2), hstep]
    · rw [firstTruthySeen, if_neg hk] at hfs
      have hstep : jsTruthy (setRequestHeader st kv.1 kv.2).authorization = false := by
        rw [setRequestHeader_authorization]
        by_cases hm : (jsToLower kv.1 == "authorization".data) = true
        · have hkv : kv.2.isEmpty = true := by
            simpa [hm] using hk
          rw [if_pos (by simp [hft, hm])]
          simp [jsTruthy, hkv]
        · rw [if_neg (by simp [hm])]
          exact hft
      exact ih tr' _ v hstep hfs

/-! ## Helper lemmas: lists -/

theorem count_filter_eq {α : Type} [DecidableEq α] (l : List α) (q : α → Bool) (a : α) :
    (l.filter q).count a = if q a then l.count a else 0 := by
  induction l with
  | nil => simp
  | cons b t ih =>
    rcases eq_or_ne b a with rfl | hba
    · by_cases hb : q b <;> simp [List.filter_cons, hb, List.count_cons, ih]
    · by_cases hb : q b <;> simp [List.filter_cons, hb, List.count_cons, ih, hba]

theorem jsSplit_of_no_sep {c : Char} {l : Str} (h : ¬ c ∈ l) : jsSplit c l = [l] := by
  induction l with
  | nil => rfl
  | cons a t ih =>
    rw [List.mem_cons, not_or] at h
    obtain ⟨h1, h2⟩ := h
    unfold jsSplit
    simp only [ih h2]
    rw [if_neg fun he => h1 he.symm]

/-! ## Claim theorems -/

/-- C1: the raw record with date `25/02/2026`, period range `1-3`, room
`P101</br>extra` and session `(07:00)` maps (for any uid and any values of
the remaining free-text fields) to an event with location `P101`, start
timestamp `20260225T063000` and end timestamp `20260225T091000`. -/
theorem mapper_scenario1 (uid ssu np prof curr : Str) :
    (toEvent uid (TMUScheduleItem.mk "25/02/2026".data "1-3".data "P101</br>extra".data
        "(07:00)".data ssu np prof curr)).map (·.location) = some "P101".data ∧
    (toEvent uid (TMUScheduleItem.mk "25/02/2026".data "1-3".data "P101</br>extra".data
        "(07:00)".data ssu np prof curr)).map (·.start) = some "20260225T063000".data ∧
    (toEvent uid (TMUScheduleItem.mk "25/02/2026".data "1-3".data "P101</br>extra".data
        "(07:00)".data ssu np prof curr)).map (·.«end») = some "20260225T091000".data :=
  ⟨rfl, rfl, rfl⟩

/-- C2: for every week list with a first element, the service's week filter
returns a sublist of the input (original order preserved) whose members are
exactly the weeks sharing the `(TermID, YearStudy)` pair of the first
element, with multiplicities preserved. -/
theorem aggregator_week_filter_spec (w0 : WeekScheduleItem) (rest : List WeekScheduleItem) :
    (termWeekFilter (w0 :: rest)).Sublist (w0 :: rest) ∧
    (∀ w, w ∈ termWeekFilter (w0 :: rest) ↔
        w ∈ w0 :: rest ∧ w.TermID = w0.TermID ∧ w.YearStudy = w0.YearStudy) ∧
    (∀ w, (termWeekFilter (w0 :: rest)).count w =
        if w.TermID = w0.TermID ∧ w.YearStudy = w0.YearStudy
        then (w0 :: rest).count w else 0) := by
  refine ⟨List.filter_sublist _, fun w => ?_, fun w => ?_⟩
  · show w ∈ (w0 :: rest).filter
        (fun w => w.TermID == w0.TermID && w.YearStudy == w0.YearStudy) ↔ _
    rw [List.mem_filter]
    simp
  · show ((w0 :: rest).filter
        (fun w => w.TermID == w0.TermID && w.YearStudy == w0.YearStudy)).count w = _
    rw [count_filter_eq]
    have hiff : (w.TermID == w0.TermID && w.YearStudy == w0.YearStudy) = true ↔
        (w.TermID = w0.TermID ∧ w.YearStudy = w0.YearStudy) := by simp
    by_cases hc : w.TermID = w0.TermID ∧ w.YearStudy = w0.YearStudy
    · rw [if_pos (hiff.mpr hc), if_pos hc]
    · rw [if_neg (fun hh => hc (hiff.mp hh)), if_neg hc]

/-- C3: the serializer's escaping is the four substitutions
backslash, newline, comma, semicolon applied in exactly that order, and for
every string whose only control character is the newline, escaping followed
by reversing the substitutions restores the original string. -/
theorem escapeText_order_and_roundtrip :
    (∀ s : Str, escapeText s =
      replaceChar ';' ['\\', ';'] (replaceChar ',' ['\\', ','] (replaceChar '\n' ['\\', 'n']
        (replaceChar '\\' ['\\', '\\'] s)))) ∧
    (∀ s : Str, (∀ c ∈ s, c.toNat < 32 → c = '\n') → unescapeText (escapeText s) = s) :=
  ⟨fun _ => rfl, fun s _ => unescape_escapeText s⟩

/-- Witness for C3 on a string holding a comma, a semicolon, a backslash and
a newline. -/
theorem escapeText_roundtrip_witness :
    unescapeText (escapeText "a,b;c\\d\ne".data) = "a,b;c\\d\ne".data :=
  escapeText_order_and_roundtrip.2 _ (by decide)

/-- C4: a record is dropped by `toEvent` exactly when a date component is
falsy (missing, unparsable or zero) or a period-table lookup misses; the
mapper equals a filterMap over the items (no partial events), so its output
is never longer than its input. -/
theorem mapper_filter_spec :
    (∀ (uid : Str) (item : TMUScheduleItem),
      toEvent uid item = none ↔
        jsFalsy (dateComponent item 0) ∨ jsFalsy (dateComponent item 1) ∨
        jsFalsy (dateComponent item 2) ∨
        periodLookup item 0 = none ∨ periodLookup item 1 = none) ∧
    (∀ (uidGen : Nat → Str) (items : List TMUScheduleItem),
      mapSchedules uidGen items = items.enum.filterMap fun p => toEvent (uidGen p.1) p.2) ∧
    (∀ (uidGen : Nat → Str) (items : List TMUScheduleItem),
      (mapSchedules uidGen items).length ≤ items.length) :=
  ⟨toEvent_none_iff, mapSchedules_eq_filterMap, mapSchedules_length_le⟩

/-- C5: with a cached week list and captured credentials, the aggregated
output is the in-order concatenation of the per-week contributions over the
filtered week list; a thrown fetch contributes `[]`, and replacing every
failing fetch by one that succeeds with zero records leaves the output
unchanged (one failing week never aborts the export). -/
theorem aggregator_fault_tolerance (st : InterceptorState)
    (fetch : WeekScheduleItem → Except Unit (Option (List TMUScheduleItem)))
    (w0 : WeekScheduleItem) (rest : List WeekScheduleItem) (hdrs : List (Str × Str))
    (hw : st.cachedWeeks = some (w0 :: rest)) (hh : getAuthHeaders st = some hdrs) :
    loadCurrentTermSchedules st fetch =
      ((termWeekFilter (w0 :: rest)).map fun w => fetchRecords (fetch w)).flatten ∧
    (∀ w, fetch w = Except.error () → fetchRecords (fetch w) = []) ∧
    loadCurrentTermSchedules st fetch =
      loadCurrentTermSchedules st fun w => Except.ok (some (fetchRecords (fetch w))) := by
  refine ⟨?_, ?_, ?_⟩
  · simp only [loadCurrentTermSchedules, hw, hh]
  · intro w hwf
    rw [hwf]
    rfl
  · simp only [loadCurrentTermSchedules, hw, hh]
    refine congrArg List.flatten (List.map_congr_left fun w _ => ?_)
    cases hfw : fetch w <;> simp [fetchRecords]

/-- Witness for C5: week 2 of three throws, so the output is the two
successful weeks' records in week-list order. -/
theorem aggregator_fault_tolerance_witness :
    loadCurrentTermSchedules st5 fetch3 = [recA, recB] := by
  rw [(aggregator_fault_tolerance st5 fetch3 (wk5 1) [wk5 2, wk5 3]
    [("apikey".data, "k".data), ("authorization".data, "a".data),
     ("clientid".data, "tmu".data)] rfl rfl).1]
  decide

/-- Counterexample to C6 as stated: for the record with period range
`12-1` both period lookups succeed, yet the produced event has start
`20260225T171000` and end `20260225T072000`, and start < end fails. -/
theorem toEvent_order_counterexample :
    (periodLookup (TMUScheduleItem.mk "25/02/2026".data "12-1".data
        [] [] [] [] [] []) 0).isSome = true ∧
    (periodLookup (TMUScheduleItem.mk "25/02/2026".data "12-1".data
        [] [] [] [] [] []) 1).isSome = true ∧
    (toEvent "u".data (TMUScheduleItem.mk "25/02/2026".data "12-1".data
        [] [] [] [] [] [])).map (·.start) = some "20260225T171000".data ∧
    (toEvent "u".data (TMUScheduleItem.mk "25/02/2026".data "12-1".data
        [] [] [] [] [] [])).map (·.«end») = some "20260225T072000".data ∧
    ¬ (("20260225T171000".data : Str) < "20260225T072000".data) := by
  decide

/-- C6 (amended): whenever both period lookups succeed AND the start period
index is at most the end period index, the produced event satisfies
start < end in the lexicographic order of the compact timestamps. -/
theorem toEvent_start_lt_end_of_ordered {uid : Str} {item : TMUScheduleItem}
    {e : CalendarEvent} {sp ep : Int}
    (he : toEvent uid item = some e)
    (hsp : periodIndex item 0 = some sp) (hep : periodIndex item 1 = some ep)
    (hle : sp ≤ ep) :
    e.start < e.«end» := by
  obtain ⟨d, m, y, st, et, hd0, hd1, hd2, hz, hp0, hp1, hs, he2⟩ := toEvent_some_shape he
  rw [periodLookup, hsp] at hp0
  rw [periodLookup, hep] at hp1
  simp only [Option.some_bind] at hp0 hp1
  rw [hs, he2, toICSDate, toICSDate]
  rw [append_lt_append_iff]
  exact period_suffix_lt hle hp0 hp1

/-- Witness for the amended C6 at period range `1-3`. -/
theorem toEvent_start_lt_end_witness : cEvent6.start < cEvent6.«end» :=
  @toEvent_start_lt_end_of_ordered "u".data cItem6 cEvent6 1 3
    (by decide) (by decide) (by decide) (by decide)

/-- Counterexample to C7 as stated: when the first-seen value for `apikey`
is the empty string, a later header-setting step overwrites it, so the
first-seen value does not win. -/
theorem capture_overwrite_counterexample :
    firstSeen "apikey".data [("apikey".data, []), ("apikey".data, "k2".data)] = some [] ∧
    (processHeaders initialState
      [("apikey".data, []), ("apikey".data, "k2".data)]).apiKey = some "k2".data ∧
    some "k2".data ≠ (some [] : Option Str) := by
  decide

/-- C7 (amended): for each credential field, the first-seen truthy
(non-empty) header value (names lower-cased before comparison) is stored
verbatim and is never overwritten by any later header-setting step — also
when empty matching captures precede it, since those keep the falsiness
guard open without blocking the eventual truthy capture. -/
theorem capture_first_truthy_wins (trace trace' : List (Str × Str)) (v : Str) :
    (firstTruthySeen "apikey".data trace = some v →
      (processHeaders initialState (trace ++ trace')).apiKey = some v) ∧
    (firstTruthySeen "authorization".data trace = some v →
      (processHeaders initialState (trace ++ trace')).authorization = some v) :=
  ⟨fun h => firstTruthySeen_apiKey_wins trace trace' initialState v rfl h,
   fun h => firstTruthySeen_authorization_wins trace trace' initialState v rfl h⟩

/-- Witness for the amended C7 on the previously uncovered class: an empty
`apikey` capture precedes the first truthy (mixed-case) value `K2`, which is
stored and survives a later `apikey` step; likewise for authorization. -/
theorem capture_first_truthy_wins_witness :
    (processHeaders initialState
      ([("apikey".data, []), ("ApiKey".data, "K2".data)] ++
        [("apikey".data, "K3".data)])).apiKey = some "K2".data ∧
    (processHeaders initialState
      ([("Authorization".data, []), ("authorization".data, "A1".data)] ++ [])).authorization
        = some "A1".data :=
  ⟨(capture_first_truthy_wins [("apikey".data, []), ("ApiKey".data, "K2".data)]
      [("apikey".data, "K3".data)] "K2".data).1 (by decide),
   (capture_first_truthy_wins [("Authorization".data, []), ("authorization".data, "A1".data)]
      [] "A1".data).2 (by decide)⟩

/-- C8: an absent or empty cached week list, or absent credentials, makes
the loader return an empty result (no exception is modelled — the function
is total); and when mapping yields zero events the orchestrator skips the
file save and reports nothing to export (`none`). -/
theorem soft_noop_spec (st : InterceptorState)
    (fetch : WeekScheduleItem → Except Unit (Option (List TMUScheduleItem)))
    (uidGen : Nat → Str) (items : List TMUScheduleItem) :
    ((st.cachedWeeks = none ∨ st.cachedWeeks = some [] ∨ getAuthHeaders st = none) →
      loadCurrentTermSchedules st fetch = []) ∧
    (mapSchedules uidGen items = [] → exportCurrentTerm uidGen items = none) := by
  constructor
  · intro h
    rcases h with h | h | h
    · simp [loadCurrentTermSchedules, h]
    · simp [loadCurrentTermSchedules, h]
    · rcases hw : st.cachedWeeks with _ | l
      · simp [loadCurrentTermSchedules, hw]
      · rcases l with _ | ⟨wk0, wrest⟩
        · simp [loadCurrentTermSchedules, hw]
        · simp [loadCurrentTermSchedules, hw, h]
  · intro h
    simp [exportCurrentTerm, h]

/-- Witness for C8 on the fresh context and an empty schedule list. -/
theorem soft_noop_witness :
    loadCurrentTermSchedules initialState (fun _ => Except.ok none) = [] ∧
    exportCurrentTerm (fun _ => []) [] = none :=
  ⟨(soft_noop_spec initialState (fun _ => Except.ok none) (fun _ => []) []).1 (Or.inl rfl),
   (soft_noop_spec initialState (fun _ => Except.ok none) (fun _ => []) []).2 rfl⟩

/-- C9: an empty-string captured secret makes `getAuthHeaders` return null
exactly like an absent one, and a later non-empty value for that header
name is still stored because the capture guard tests falsiness. -/
theorem empty_secret_spec (st : InterceptorState) (key v : Str) :
    ((st.apiKey = some [] ∨ st.authorization = some []) → getAuthHeaders st = none) ∧
    (st.apiKey = some [] → jsToLower key = "apikey".data → v ≠ [] →
      (setRequestHeader st key v).apiKey = some v) ∧
    (st.authorization = some [] → jsToLower key = "authorization".data → v ≠ [] →
      (setRequestHeader st key v).authorization = some v) := by
  refine ⟨?_, ?_, ?_⟩
  · intro h
    rcases h with h | h <;> simp [getAuthHeaders, h, jsTruthy]
  · intro h1 h2 _
    rw [setRequestHeader_apiKey, if_pos (by simp [h1, h2, jsTruthy])]
  · intro h1 h2 _
    rw [setRequestHeader_authorization, if_pos (by simp [h1, h2, jsTruthy])]

/-- Witness for C9 on a state with both secrets captured empty. -/
theorem empty_secret_witness :
    getAuthHeaders ⟨some [], some [], none⟩ = none ∧
    (setRequestHeader ⟨some [], some [], none⟩ "ApiKey".data "k".data).apiKey
      = some "k".data ∧
    (setRequestHeader ⟨some [], some [], none⟩ "Authorization".data "a".data).authorization
      = some "a".data :=
  ⟨(empty_secret_spec ⟨some [], some [], none⟩ [] []).1 (Or.inl rfl),
   (empty_secret_spec ⟨some [], some [], none⟩ "ApiKey".data "k".data).2.1
      rfl (by decide) (by decide),
   (empty_secret_spec ⟨some [], some [], none⟩ "Authorization".data "a".data).2.2
      rfl (by decide) (by decide)⟩

/-- C10: for a record whose period-range field contains no dash, the
end-period component of the split is absent, the end period-table lookup
misses, and the record is dropped — for every such record, whatever the
rest of its fields. -/
theorem single_period_dropped (uid : Str) (item : TMUScheduleItem)
    (h : ¬ '-' ∈ item.PeriodName) :
    ((jsSplit '-' item.PeriodName).map jsNumber)[1]? = none ∧
    periodLookup item 1 = none ∧
    toEvent uid item = none := by
  have hs : jsSplit '-' item.PeriodName = [item.PeriodName] := jsSplit_of_no_sep h
  have h1 : ((jsSplit '-' item.PeriodName).map jsNumber)[1]? = none := by
    rw [hs]
    rfl
  have hp : periodLookup item 1 = none := by
    unfold periodLookup periodIndex
    rw [h1]
    rfl
  refine ⟨h1, hp, ?_⟩
  rcases hd0 : dateComponent item 0 with _ | d <;>
  rcases hd1 : dateComponent item 1 with _ | m <;>
  rcases hd2 : dateComponent item 2 with _ | y <;>
    unfold toEvent <;> simp only [hd0, hd1, hd2]
  by_cases hz : d = 0 ∨ m = 0 ∨ y = 0
  · rw [if_pos hz]
  · rw [if_neg hz, hp]
    rcases hp0 : periodLookup item 0 with _ | stt <;> simp only [hp0]

/-- Witness for C10 on a single-period record (`PeriodName = "5"`) with a
valid date, where period 5 itself is a valid table key. -/
theorem single_period_dropped_witness :
    ((jsSplit '-' cItem10.PeriodName).map jsNumber)[1]? = none ∧
    periodLookup cItem10 1 = none ∧ toEvent "u".data cItem10 = none :=
  single_period_dropped "u".data cItem10 (by decide)
